import Mathlib

/-!
# Release mirroring job: embedding of `main.go`

The program fetches the latest release of a repository, and for every asset of
the release that is not yet in the destination bucket it downloads the asset to
a local file, uploads the file to the bucket, posts a chat message and removes
the local file.

The embedding is explicit state passing over a `World` (the bucket's object
names, the local working directory's file names, and the trace of network
calls).  The answers of the outside world (HTTP statuses, I/O errors) are read
from oracle records; a Go `error` is an `Option String` (`none` is `nil`), and
`log.Fatal*` (which ends the process with status 1) is an explicit `fatal`
result.
-/

namespace ReleaseMirror

/-! ## Data model -/

/-- One element of `ResponseBody.Assets`; only the fields the program reads. -/
structure Asset where
  Id : Int
  Name : String
deriving DecidableEq, Repr

/-- The decoded body of the latest-release response; only the fields the
program reads (`TagName` for the log line, `Assets` for the loop). -/
structure ResponseBody where
  TagName : String
  Assets : List Asset
deriving DecidableEq, Repr

/-- The process environment, as a list of `KEY=value` bindings. -/
abbrev Environ := List (String × String)

/-- Go's `os.Getenv`: the value of the variable, or the empty string when the
variable is not present. -/
def Getenv (env : Environ) (key : String) : String :=
  (env.lookup key).getD ""

/-- A network call made by the process, with the answer it got. -/
inductive Event where
  /-- GET of the latest-release endpoint; `none` is a transport failure,
  `some c` the HTTP status code. -/
  | releaseGet (url token : String) (status : Option Nat)
  /-- The bucket's existence check; `none` when the check itself failed. -/
  | isExist (name : String) (res : Option Bool)
  /-- GET of an asset's bytes; `none` is a transport failure. -/
  | assetGet (url token : String) (status : Option Nat)
  /-- The bucket's put-object; `err = none` when it succeeded. -/
  | put (name : String) (err : Option String)
  /-- The chat message post; `err = none` when it succeeded. -/
  | send (channel msg : String) (err : Option String)
deriving DecidableEq, Repr

/-- The state outside the process that the program reads and changes. -/
structure World where
  /-- Object names present in the destination bucket. -/
  store : List String
  /-- File names present in the local working directory. -/
  files : List String
  /-- Network calls made so far, oldest first. -/
  trace : List Event
deriving DecidableEq, Repr

/-- Append one network call to the trace. -/
def World.record (w : World) (e : Event) : World :=
  { w with trace := w.trace ++ [e] }

/-- How a Go function that may call `log.Fatal*` ends. -/
inductive Exit where
  /-- It returned `nil`. -/
  | success
  /-- It returned a non-nil error. -/
  | error (e : String)
  /-- It called `log.Fatal*`: the process ended with status 1. -/
  | fatal (msg : String)
deriving DecidableEq, Repr

/-- The answers of the outside world during one iteration of the asset loop. -/
structure AssetOracle where
  /-- Error of `cosClient.Object.IsExist`. -/
  existErr : Option String
  /-- Error of `http.NewRequest` in `downloadFile`. -/
  newRequestErr : Option String
  /-- Error of `client.Do` in `downloadFile` (a transport failure). -/
  doErr : Option String
  /-- The response's `StatusCode`, when `client.Do` gave a response. -/
  StatusCode : Nat
  /-- The response's `Status` text, such as `404 Not Found`. -/
  Status : String
  /-- Error of `os.Create`. -/
  createErr : Option String
  /-- Error of `io.Copy`. -/
  copyErr : Option String
  /-- Error of `os.Open` (besides the file not existing). -/
  openErr : Option String
  /-- Error of `cosClient.Object.Put`. -/
  putErr : Option String
  /-- Error of `discordSession.ChannelMessageSend`. -/
  sendErr : Option String
  /-- Error of `os.Remove` (besides the file not existing). -/
  removeErr : Option String
deriving DecidableEq, Repr

/-- The answers of the outside world to the latest-release request. -/
structure FetchOracle where
  /-- Error of `http.NewRequest`. -/
  newRequestErr : Option String
  /-- Error of `client.Do` (a transport failure). -/
  doErr : Option String
  /-- The response's `StatusCode`, when `client.Do` gave a response. -/
  StatusCode : Nat
  /-- The response's `Status` text. -/
  Status : String
  /-- Error of `io.ReadAll`. -/
  readErr : Option String
  /-- Result of `json.Unmarshal`: the error, or the decoded release. -/
  body : String ⊕ ResponseBody

/-! ## The program -/

/-- Source `downloadFile` (lines 38-71). -/
def downloadFile (o : AssetOracle) (url filename token : String) (w : World) :
    Option String × World :=
  match o.newRequestErr with
  | some err => (some err, w)
  | none =>
    match o.doErr with
    | some err => (some err, w.record (.assetGet url token none))
    | none =>
      let w1 := w.record (.assetGet url token (some o.StatusCode))
      if o.StatusCode ≠ 200 then
        (some ("response.status is not 200 - " ++ o.Status), w1)
      else
        match o.createErr with
        | some err => (some err, w1)
        | none =>
          let w2 := { w1 with files := w1.files.insert filename }
          match o.copyErr with
          | some err => (some err, w2)
          | none => (none, w2)

/-- Source `downloadFileFromGithub` (lines 73-76). -/
def downloadFileFromGithub (o : AssetOracle) (owner repo id token filename : String)
    (w : World) : Option String × World :=
  let urlStr := "https://api.github.com/repos/" ++ owner ++ "/" ++ repo ++
    "/releases/assets/" ++ id
  downloadFile o urlStr filename token w

/-- Source `getTencentBucketURL` (lines 253-263): the base URL, or the message
of the `log.Fatal` when the region or the bucket is empty. -/
def getTencentBucketURL (env : Environ) : Except String String :=
  let region := Getenv env "COS_REGION"
  let bucket := Getenv env "COS_BUCKET"
  if region = "" ∨ bucket = "" then
    .error "COS_REGION or COS_BUCKET is empty"
  else
    .ok ("https://" ++ bucket ++ ".cos." ++ region ++ ".myqcloud.com")

/-- Source `getTencentCOSURL` (lines 265-269). -/
def getTencentCOSURL (env : Environ) (filePath : String) : Except String String :=
  match getTencentBucketURL env with
  | .error msg => .error msg
  | .ok urlBaseStr => .ok (urlBaseStr ++ "/" ++ filePath)

/-- Source `hasFileAtTencentCOS` (lines 271-273).  The bucket is a set of
object names: when the check can be completed it answers membership, and it
changes nothing. -/
def hasFileAtTencentCOS (o : AssetOracle) (filepath : String) (w : World) :
    Except String Bool × World :=
  match o.existErr with
  | some err => (.error err, w.record (.isExist filepath none))
  | none =>
    let found := decide (filepath ∈ w.store)
    (.ok found, w.record (.isExist filepath (some found)))

/-- Source `uploadFileToTencentCOS` (lines 275-290).  A successful put makes
the name present in the bucket. -/
def uploadFileToTencentCOS (o : AssetOracle) (filePath : String) (w : World) :
    Option String × World :=
  if filePath ∉ w.files then
    (some ("open " ++ filePath ++ ": no such file or directory"), w)
  else
    match o.openErr with
    | some err => (some err, w)
    | none =>
      match o.putErr with
      | some err => (some err, w.record (.put filePath (some err)))
      | none =>
        (none, { w with store := w.store.insert filePath,
                        trace := w.trace ++ [.put filePath none] })

/-- Source `sendMessageInDiscord` (lines 309-317): `some msg` is the message
of the `log.Fatalln` when the post failed. -/
def sendMessageInDiscord (env : Environ) (o : AssetOracle) (message : String)
    (w : World) : Option String × World :=
  let channelID := Getenv env "DISCORD_CHANNEL_ID"
  match o.sendErr with
  | some err =>
    (some ("Error sending message: " ++ err), w.record (.send channelID message (some err)))
  | none => (none, w.record (.send channelID message none))

/-- Go's `os.Remove` on the working directory. -/
def osRemove (o : AssetOracle) (name : String) (w : World) : Option String × World :=
  if name ∉ w.files then
    (some ("remove " ++ name ++ ": no such file or directory"), w)
  else
    match o.removeErr with
    | some err => (some err, w)
    | none => (none, { w with files := w.files.filter (fun f => f ≠ name) })

/-- One iteration of the asset loop of `downloadLatestAssets` (lines 188-220):
`none` when the loop goes on to the next asset, `some msg` when the iteration
ended the process through `log.Fatal*` with that message. -/
def syncAsset (env : Environ) (owner repo token : String) (o : AssetOracle)
    (asset : Asset) (w : World) : Option String × World :=
  let assetName := asset.Name
  match hasFileAtTencentCOS o assetName w with
  | (.error err, w1) =>
    (some ("Failed to check " ++ assetName ++ ". Error: " ++ err ++ "\n"), w1)
  | (.ok true, w1) => (none, w1)
  | (.ok false, w1) =>
    match downloadFileFromGithub o owner repo (toString asset.Id) token assetName w1 with
    | (some err, w2) =>
      (some ("Failed to download " ++ assetName ++ ". Error: " ++ err ++ "\n"), w2)
    | (none, w2) =>
      match uploadFileToTencentCOS o assetName w2 with
      | (some err, w3) =>
        (some ("Failed to upload " ++ assetName ++ ". Error: " ++ err ++ "\n"), w3)
      | (none, w3) =>
        match getTencentCOSURL env assetName with
        | .error msg => (some msg, w3)
        | .ok newUrl =>
          match sendMessageInDiscord env o ("New Release :> " ++ newUrl) w3 with
          | (some msg, w4) => (some msg, w4)
          | (none, w4) =>
            match osRemove o assetName w4 with
            | (some err, w5) => (some ("Error deleting file: " ++ err), w5)
            | (none, w5) => (none, w5)

/-- The asset loop of `downloadLatestAssets` (lines 188-222), from the asset
at position `i` on; `oracle j` holds the outside world's answers during the
iteration for the asset at position `j`. -/
def syncAssets (env : Environ) (owner repo token : String) (oracle : Nat → AssetOracle) :
    Nat → List Asset → World → Exit × World
  | _, [], w => (.success, w)
  | i, asset :: rest, w =>
    match syncAsset env owner repo token (oracle i) asset w with
    | (some msg, w1) => (.fatal msg, w1)
    | (none, w1) => syncAssets env owner repo token oracle (i + 1) rest w1

/-- Source `downloadLatestAssets` (lines 151-223). -/
def downloadLatestAssets (env : Environ) (fetch : FetchOracle) (oracle : Nat → AssetOracle)
    (owner repo token : String) (w : World) : Exit × World :=
  let urlStr := "https://api.github.com/repos/" ++ owner ++ "/" ++ repo ++ "/releases/latest"
  match fetch.newRequestErr with
  | some err => (.error err, w)
  | none =>
    match fetch.doErr with
    | some err => (.error err, w.record (.releaseGet urlStr token none))
    | none =>
      let w1 := w.record (.releaseGet urlStr token (some fetch.StatusCode))
      if fetch.StatusCode ≠ 200 then
        (.error ("failed to retrieve release information for " ++ repo ++ ". Error: " ++
          fetch.Status), w1)
      else
        match fetch.readErr with
        | some err => (.fatal err, w1)
        | none =>
          match fetch.body with
          | .inl err => (.error err, w1)
          | .inr releaseData =>
            syncAssets env owner repo token oracle 0 releaseData.Assets w1

/-- The answers of the libraries called while the process starts up, each as
a function of the argument the program passes. -/
structure StartupOracle where
  /-- Error of `godotenv.Load`. -/
  dotenvErr : Option String
  /-- Error of `url.Parse` on the bucket URL. -/
  urlParseErr : String → Option String
  /-- Error of `discordgo.New` on the token string. -/
  discordNewErr : String → Option String

/-- Source `initCOS` (lines 227-251): `some msg` is the message of the
`log.Fatal` that ended the process, `none` means the client was created.
Creating the client makes no network call. -/
def initCOS (env : Environ) (s : StartupOracle) : Option String :=
  let secretId := Getenv env "COS_SECRET_ID"
  let secretKey := Getenv env "COS_SECRET_KEY"
  if secretId = "" ∨ secretKey = "" then
    some "COS_SECRET_ID or COS_SECRET_KEY is empty"
  else
    match getTencentBucketURL env with
    | .error msg => some msg
    | .ok urlStr =>
      match s.urlParseErr urlStr with
      | some err => some err
      | none => none

/-- Source `initDiscordBot` (lines 294-307): `some msg` is the message of the
`log.Fatal` that ended the process.  `DISCORD_TOKEN` is read and handed to
`discordgo.New` as it is; only `DISCORD_CHANNEL_ID` is compared with the empty
string. -/
def initDiscordBot (env : Environ) (s : StartupOracle) : Option String :=
  let discordToken := Getenv env "DISCORD_TOKEN"
  match s.discordNewErr ("Bot " ++ discordToken) with
  | some err => some ("Error creating Discord session:" ++ err)
  | none =>
    let channelID := Getenv env "DISCORD_CHANNEL_ID"
    if channelID = "" then some "Error DISCORD_CHANNEL_ID is empty" else none

/-- Source `main` (lines 319-345); `env` is the process environment after
`godotenv.Load`.  The result is `success` (exit status 0) or `fatal`. -/
def main (env : Environ) (s : StartupOracle) (fetch : FetchOracle)
    (oracle : Nat → AssetOracle) (w : World) : Exit × World :=
  match s.dotenvErr with
  | some err => (.fatal ("Error loading .env file:" ++ err), w)
  | none =>
    match initCOS env s with
    | some msg => (.fatal msg, w)
    | none =>
      match initDiscordBot env s with
      | some msg => (.fatal msg, w)
      | none =>
        let githubOwner := Getenv env "GITHUB_OWNER"
        let githubRepo := Getenv env "GITHUB_REPO"
        let githubToken := Getenv env "GITHUB_TOKEN"
        if githubOwner.length = 0 then (.fatal "GITHUB_OWNER is not set", w)
        else if githubRepo.length = 0 then (.fatal "GITHUB_REPO is not set", w)
        else if githubToken.length = 0 then (.fatal "GITHUB_TOKEN is not set", w)
        else
          match downloadLatestAssets env fetch oracle githubOwner githubRepo githubToken w with
          | (.error err, w1) => (.fatal err, w1)
          | (.fatal msg, w1) => (.fatal msg, w1)
          | (.success, w1) => (.success, w1)

/-! ## Vocabulary of the statements -/

/-- The fetch of the latest release succeeded and decoded to `rel`. -/
def FetchOracle.delivers (f : FetchOracle) (rel : ResponseBody) : Prop :=
  f.newRequestErr = none ∧ f.doErr = none ∧ f.StatusCode = 200 ∧ f.readErr = none ∧
    f.body = .inr rel

/-- The successful latest-release request, as it appears in the trace. -/
def fetchEvent (owner repo token : String) : Event :=
  .releaseGet ("https://api.github.com/repos/" ++ owner ++ "/" ++ repo ++ "/releases/latest")
    token (some 200)

/-- The URL `downloadFileFromGithub` requests for an asset. -/
def assetURL (owner repo : String) (asset : Asset) : String :=
  "https://api.github.com/repos/" ++ owner ++ "/" ++ repo ++ "/releases/assets/" ++
    toString asset.Id

/-- The message text the specification gives for a stored object: the fixed
lead-in followed by the object's public URL. -/
def announcement (env : Environ) (name : String) : String :=
  "New Release :> " ++ ("https://" ++ Getenv env "COS_BUCKET" ++ ".cos." ++
    Getenv env "COS_REGION" ++ ".myqcloud.com" ++ "/" ++ name)

/-- The network calls made between world `w` and a later world `w1`. -/
def newEvents (w w1 : World) : List Event :=
  w1.trace.drop w.trace.length

/-- The texts of the messages that were posted (the post succeeded) in a
trace, in order. -/
def postedMessages (t : List Event) : List String :=
  t.filterMap fun e =>
    match e with
    | .send _ msg none => some msg
    | _ => none

/-- An asset download, a put or a message post (any outcome). -/
def Event.isTransferOrNotify : Event → Bool
  | .assetGet _ _ _ => true
  | .put _ _ => true
  | .send _ _ _ => true
  | _ => false

/-- The specification's per-asset outcome. -/
inductive SyncOutcome where
  | Skipped
  | Mirrored
  | Failed
deriving DecidableEq, Repr

/-- The specification's classification of the assets of a run that completes,
from the bucket's content when the run starts: an asset is `Skipped` when its
name is present at its turn, else it is `Mirrored` and its name becomes
present. -/
def classify : List String → List Asset → List SyncOutcome
  | _, [] => []
  | store, asset :: rest =>
    if asset.Name ∈ store then .Skipped :: classify store rest
    else .Mirrored :: classify (store.insert asset.Name) rest

/-- The network calls the specification allots to an asset of a given outcome:
for `Skipped` the existence check that answered true; for `Mirrored` the
existence check that answered false, then one download, one upload and one
notification.  (`Failed` assets have no fixed list; it is not used for them.) -/
def outcomeEvents (env : Environ) (owner repo token : String) (asset : Asset) :
    SyncOutcome → List Event
  | .Skipped => [.isExist asset.Name (some true)]
  | .Mirrored =>
    [.isExist asset.Name (some false),
      .assetGet (assetURL owner repo asset) token (some 200),
      .put asset.Name none,
      .send (Getenv env "DISCORD_CHANNEL_ID") (announcement env asset.Name) none]
  | .Failed => []

/-- The bucket's content after every asset of the list was skipped or mirrored. -/
def storeAfter (store : List String) (assets : List Asset) : List String :=
  assets.foldl (fun s a => s.insert a.Name) store

/-- The run of `downloadLatestAssets` on release `rel` gets to the asset at
position `pre.length`: the release was fetched, its assets are `pre`, then
`asset`, then `post`, and the loop over `pre` went through and left world
`w1`. -/
def ReachesAsset (env : Environ) (f : FetchOracle) (oracle : Nat → AssetOracle)
    (owner repo token : String) (w : World) (rel : ResponseBody)
    (pre : List Asset) (asset : Asset) (post : List Asset) (w1 : World) : Prop :=
  f.delivers rel ∧ rel.Assets = pre ++ asset :: post ∧
    syncAssets env owner repo token oracle 0 pre (w.record (fetchEvent owner repo token)) =
      (.success, w1)

/-- The download and the upload of the iteration succeed: the request is
built and answered with status 200, the local file is created and written,
then opened and put. -/
def AssetOracle.transfers (o : AssetOracle) : Prop :=
  o.newRequestErr = none ∧ o.doErr = none ∧ o.StatusCode = 200 ∧ o.createErr = none ∧
    o.copyErr = none ∧ o.openErr = none ∧ o.putErr = none

/-! ## Concrete scenarios -/

/-- An environment with every variable the program reads. -/
def demoEnv : Environ :=
  [("GITHUB_OWNER", "acme"), ("GITHUB_REPO", "tool"), ("GITHUB_TOKEN", "ghp"),
    ("COS_BUCKET", "mybucket"), ("COS_REGION", "ap-guangzhou"),
    ("COS_SECRET_ID", "id"), ("COS_SECRET_KEY", "key"),
    ("DISCORD_TOKEN", "bot"), ("DISCORD_CHANNEL_ID", "42")]

/-- An iteration in which every call succeeds. -/
def allGood : AssetOracle :=
  { existErr := none, newRequestErr := none, doErr := none, StatusCode := 200,
    Status := "200 OK", createErr := none, copyErr := none, openErr := none,
    putErr := none, sendErr := none, removeErr := none }

/-- A latest-release request that succeeds and decodes to the given assets. -/
def deliver (assets : List Asset) : FetchOracle :=
  { newRequestErr := none, doErr := none, StatusCode := 200, Status := "200 OK",
    readErr := none, body := .inr ⟨"v1.2.0", assets⟩ }

/-- An empty bucket, an empty working directory, no call made yet. -/
def emptyWorld : World := ⟨[], [], []⟩

/-- The first asset of the specification's scenarios. -/
def aZip : Asset := ⟨1, "a.zip"⟩

/-- The second asset of the specification's scenarios. -/
def bZip : Asset := ⟨2, "b.zip"⟩

/-- An iteration whose existence check fails. -/
def checkFails : AssetOracle := { allGood with existErr := some "StoreUnavailable" }

/-- An iteration whose download request is answered 404. -/
def notFound : AssetOracle := { allGood with StatusCode := 404, Status := "404 Not Found" }

/-- An iteration in which writing the downloaded bytes fails. -/
def copyFails : AssetOracle := { allGood with copyErr := some "unexpected EOF" }

/-- An iteration whose put fails. -/
def putFails : AssetOracle := { allGood with putErr := some "503 Service Unavailable" }

/-- An iteration whose message post fails. -/
def sendFails : AssetOracle := { allGood with sendErr := some "HTTP 401 Unauthorized" }

/-- The first iteration succeeds, the download of the second is answered 404. -/
def secondNotFound (i : Nat) : AssetOracle :=
  if i = 1 then notFound else allGood

/-- The world after the release of `acme/tool` was fetched from `emptyWorld`. -/
def fetchedWorld : World :=
  ⟨[], [],
    [.releaseGet "https://api.github.com/repos/acme/tool/releases/latest" "ghp" (some 200)]⟩

/-- The world after `a.zip` was mirrored from `fetchedWorld`. -/
def mirroredA : World :=
  ⟨["a.zip"], [],
    [.releaseGet "https://api.github.com/repos/acme/tool/releases/latest" "ghp" (some 200),
      .isExist "a.zip" (some false),
      .assetGet "https://api.github.com/repos/acme/tool/releases/assets/1" "ghp" (some 200),
      .put "a.zip" none,
      .send "42" "New Release :> https://mybucket.cos.ap-guangzhou.myqcloud.com/a.zip" none]⟩

/-- An environment like `demoEnv` but without `DISCORD_TOKEN`. -/
def noTokenEnv : Environ :=
  [("GITHUB_OWNER", "acme"), ("GITHUB_REPO", "tool"), ("GITHUB_TOKEN", "ghp"),
    ("COS_BUCKET", "mybucket"), ("COS_REGION", "ap-guangzhou"),
    ("COS_SECRET_ID", "id"), ("COS_SECRET_KEY", "key"),
    ("DISCORD_CHANNEL_ID", "42")]

/-- A start-up in which the `.env` file loads, the bucket URL parses and the
chat session is created (`discordgo.New` only stores the token it is given). -/
def startupGood : StartupOracle :=
  { dotenvErr := none, urlParseErr := fun _ => none, discordNewErr := fun _ => none }

/-- The asset of the specification's notification example. -/
def toolTarball : Asset := ⟨7, "tool-v1.2.0.tar.gz"⟩

/-- The ways one iteration of the asset loop can end, with the world it leaves. -/
inductive StepShape (env : Environ) (owner repo token : String) (asset : Asset) (w : World) :
    Option String → World → Prop
  | checkFailed (msg : String) :
    StepShape env owner repo token asset w (some msg)
      ⟨w.store, w.files, w.trace ++ [.isExist asset.Name none]⟩
  | skipped (h : asset.Name ∈ w.store) :
    StepShape env owner repo token asset w none
      ⟨w.store, w.files, w.trace ++ [.isExist asset.Name (some true)]⟩
  | downloadFailed (msg : String) (files : List String) (evs : List Event)
    (h : asset.Name ∉ w.store)
    (hevs : evs = [] ∨ ∃ st, evs = [.assetGet (assetURL owner repo asset) token st]) :
    StepShape env owner repo token asset w (some msg)
      ⟨w.store, files, w.trace ++ .isExist asset.Name (some false) :: evs⟩
  | uploadFailed (msg : String) (evs : List Event)
    (h : asset.Name ∉ w.store)
    (hevs : evs = [] ∨ ∃ err, evs = [.put asset.Name (some err)]) :
    StepShape env owner repo token asset w (some msg)
      ⟨w.store, w.files.insert asset.Name, w.trace ++ .isExist asset.Name (some false) ::
        .assetGet (assetURL owner repo asset) token (some 200) :: evs⟩
  | urlFatal (msg : String) (h : asset.Name ∉ w.store)
    (henv : Getenv env "COS_REGION" = "" ∨ Getenv env "COS_BUCKET" = "") :
    StepShape env owner repo token asset w (some msg)
      ⟨w.store.insert asset.Name, w.files.insert asset.Name,
        w.trace ++ [.isExist asset.Name (some false),
          .assetGet (assetURL owner repo asset) token (some 200), .put asset.Name none]⟩
  | sendFailed (msg err : String) (h : asset.Name ∉ w.store)
    (henv : ¬(Getenv env "COS_REGION" = "" ∨ Getenv env "COS_BUCKET" = "")) :
    StepShape env owner repo token asset w (some msg)
      ⟨w.store.insert asset.Name, w.files.insert asset.Name,
        w.trace ++ [.isExist asset.Name (some false),
          .assetGet (assetURL owner repo asset) token (some 200), .put asset.Name none,
          .send (Getenv env "DISCORD_CHANNEL_ID") (announcement env asset.Name) (some err)]⟩
  | removeFailed (msg : String) (h : asset.Name ∉ w.store)
    (henv : ¬(Getenv env "COS_REGION" = "" ∨ Getenv env "COS_BUCKET" = "")) :
    StepShape env owner repo token asset w (some msg)
      ⟨w.store.insert asset.Name, w.files.insert asset.Name,
        w.trace ++ [.isExist asset.Name (some false),
          .assetGet (assetURL owner repo asset) token (some 200), .put asset.Name none,
          .send (Getenv env "DISCORD_CHANNEL_ID") (announcement env asset.Name) none]⟩
  | mirrored (h : asset.Name ∉ w.store)
    (henv : ¬(Getenv env "COS_REGION" = "" ∨ Getenv env "COS_BUCKET" = "")) :
    StepShape env owner repo token asset w none
      ⟨w.store.insert asset.Name, (w.files.insert asset.Name).filter (fun f => f ≠ asset.Name),
        w.trace ++ [.isExist asset.Name (some false),
          .assetGet (assetURL owner repo asset) token (some 200), .put asset.Name none,
          .send (Getenv env "DISCORD_CHANNEL_ID") (announcement env asset.Name) none]⟩

/-! ## Structure of the loop -/

theorem downloadLatestAssets_of_delivers (env : Environ) (f : FetchOracle)
    (oracle : Nat → AssetOracle) (owner repo token : String) (w : World) (rel : ResponseBody)
    (hf : f.delivers rel) :
    downloadLatestAssets env f oracle owner repo token w =
      syncAssets env owner repo token oracle 0 rel.Assets
        (w.record (fetchEvent owner repo token)) := by
  obtain ⟨h1, h2, h3, h4, h5⟩ := hf
  simp [downloadLatestAssets, h1, h2, h3, h4, h5, fetchEvent]

theorem syncAssets_cons_continue (env : Environ) (owner repo token : String)
    (oracle : Nat → AssetOracle) (i : Nat) (asset : Asset) (rest : List Asset) (w w1 : World)
    (h : syncAsset env owner repo token (oracle i) asset w = (none, w1)) :
    syncAssets env owner repo token oracle i (asset :: rest) w =
      syncAssets env owner repo token oracle (i + 1) rest w1 := by
  simp [syncAssets, h]

theorem syncAssets_cons_fatal (env : Environ) (owner repo token : String)
    (oracle : Nat → AssetOracle) (i : Nat) (asset : Asset) (rest : List Asset) (w w1 : World)
    (msg : String) (h : syncAsset env owner repo token (oracle i) asset w = (some msg, w1)) :
    syncAssets env owner repo token oracle i (asset :: rest) w = (.fatal msg, w1) := by
  simp [syncAssets, h]

theorem syncAssets_append (env : Environ) (owner repo token : String)
    (oracle : Nat → AssetOracle) (pre post : List Asset) :
    ∀ (i : Nat) (w w1 : World),
      syncAssets env owner repo token oracle i pre w = (.success, w1) →
      syncAssets env owner repo token oracle i (pre ++ post) w =
        syncAssets env owner repo token oracle (i + pre.length) post w1 := by
  induction pre with
  | nil =>
    intro i w w1 h
    simp [syncAssets] at h
    simp [h]
  | cons a rest ih =>
    intro i w w1 h
    rcases hstep : syncAsset env owner repo token (oracle i) a w with ⟨r, w2⟩
    cases r with
    | some msg =>
      rw [syncAssets_cons_fatal env owner repo token oracle i a rest w w2 msg hstep] at h
      simp at h
    | none =>
      rw [syncAssets_cons_continue env owner repo token oracle i a rest w w2 hstep] at h
      rw [List.cons_append,
        syncAssets_cons_continue env owner repo token oracle i a (rest ++ post) w w2 hstep,
        ih (i + 1) w2 w1 h]
      simp [Nat.add_assoc, Nat.add_comm 1]

theorem syncAsset_checkFailed (env : Environ) (owner repo token : String) (o : AssetOracle)
    (asset : Asset) (w : World) (err : String) (h : o.existErr = some err) :
    syncAsset env owner repo token o asset w =
      (some ("Failed to check " ++ asset.Name ++ ". Error: " ++ err ++ "\n"),
        w.record (.isExist asset.Name none)) := by
  simp [syncAsset, hasFileAtTencentCOS, h]

theorem syncAsset_present (env : Environ) (owner repo token : String) (o : AssetOracle)
    (asset : Asset) (w : World) (h : (hasFileAtTencentCOS o asset.Name w).1 = .ok true) :
    syncAsset env owner repo token o asset w =
      (none, w.record (.isExist asset.Name (some true))) := by
  unfold hasFileAtTencentCOS at h
  cases he : o.existErr with
  | some e => simp [he] at h
  | none =>
    simp [he] at h
    simp [syncAsset, hasFileAtTencentCOS, he, h]

theorem syncAsset_shape (env : Environ) (owner repo token : String) (o : AssetOracle)
    (asset : Asset) (w : World) :
    StepShape env owner repo token asset w (syncAsset env owner repo token o asset w).1
      (syncAsset env owner repo token o asset w).2 := by
  obtain ⟨existErr, newRequestErr, doErr, code, status, createErr, copyErr, openErr, putErr,
    sendErr, removeErr⟩ := o
  cases existErr with
  | some e =>
    simpa [syncAsset, hasFileAtTencentCOS, World.record, assetURL, announcement] using
      @StepShape.checkFailed env owner repo token asset w _
  | none =>
    by_cases hmem : asset.Name ∈ w.store
    · simpa [syncAsset, hasFileAtTencentCOS, World.record, hmem, assetURL, announcement] using
   @StepShape.skipped env owner repo token asset w hmem
    · cases newRequestErr with
      | some e =>
        simpa [syncAsset, hasFileAtTencentCOS, World.record, hmem, downloadFileFromGithub,
          downloadFile, assetURL, announcement] using
          @StepShape.downloadFailed env owner repo token asset w _ _ [] hmem (Or.inl rfl)
      | none =>
      cases doErr with
      | some e =>
        simpa [syncAsset, hasFileAtTencentCOS, World.record, hmem, downloadFileFromGithub,
          downloadFile, assetURL, announcement] using
          @StepShape.downloadFailed env owner repo token asset w _ _ _ hmem (Or.inr ⟨none, rfl⟩)
      | none =>
      by_cases hcode : code = 200
      swap
      · simpa [syncAsset, hasFileAtTencentCOS, World.record, hmem, downloadFileFromGithub,
          downloadFile, hcode, assetURL, announcement] using
   @StepShape.downloadFailed env owner repo token asset w _ _ _ hmem (Or.inr ⟨some code, rfl⟩)
      subst hcode
      cases createErr with
      | some e =>
        simpa [syncAsset, hasFileAtTencentCOS, World.record, hmem, downloadFileFromGithub,
          downloadFile, assetURL, announcement] using
          @StepShape.downloadFailed env owner repo token asset w _ _ _ hmem (Or.inr ⟨some 200, rfl⟩)
      | none =>
      cases copyErr with
      | some e =>
        simpa [syncAsset, hasFileAtTencentCOS, World.record, hmem, downloadFileFromGithub,
          downloadFile, assetURL, announcement] using
          @StepShape.downloadFailed env owner repo token asset w _ _ _ hmem (Or.inr ⟨some 200, rfl⟩)
      | none =>
      cases openErr with
      | some e =>
        simpa [syncAsset, hasFileAtTencentCOS, World.record, hmem, downloadFileFromGithub,
          downloadFile, uploadFileToTencentCOS, assetURL, announcement] using
          @StepShape.uploadFailed env owner repo token asset w _ [] hmem (Or.inl rfl)
      | none =>
      cases putErr with
      | some e =>
        simpa [syncAsset, hasFileAtTencentCOS, World.record, hmem, downloadFileFromGithub,
          downloadFile, uploadFileToTencentCOS, assetURL, announcement] using
          @StepShape.uploadFailed env owner repo token asset w _ _ hmem (Or.inr ⟨e, rfl⟩)
      | none =>
      by_cases henv : Getenv env "COS_REGION" = "" ∨ Getenv env "COS_BUCKET" = ""
      · simpa [syncAsset, hasFileAtTencentCOS, World.record, hmem, downloadFileFromGithub,
          downloadFile, uploadFileToTencentCOS, getTencentCOSURL, getTencentBucketURL, henv, assetURL, announcement] using
   @StepShape.urlFatal env owner repo token asset w _ hmem henv
      cases sendErr with
      | some e =>
        simpa [syncAsset, hasFileAtTencentCOS, World.record, hmem, downloadFileFromGithub,
          downloadFile, uploadFileToTencentCOS, getTencentCOSURL, getTencentBucketURL, henv,
          sendMessageInDiscord, assetURL, announcement] using
          @StepShape.sendFailed env owner repo token asset w _ e hmem henv
      | none =>
      cases removeErr with
      | some e =>
        simpa [syncAsset, hasFileAtTencentCOS, World.record, hmem, downloadFileFromGithub,
          downloadFile, uploadFileToTencentCOS, getTencentCOSURL, getTencentBucketURL, henv,
          sendMessageInDiscord, osRemove, assetURL, announcement] using
          @StepShape.removeFailed env owner repo token asset w _ hmem henv
      | none =>
        simpa [syncAsset, hasFileAtTencentCOS, World.record, hmem, downloadFileFromGithub,
          downloadFile, uploadFileToTencentCOS, getTencentCOSURL, getTencentBucketURL, henv,
          sendMessageInDiscord, osRemove, assetURL, announcement] using
          @StepShape.mirrored env owner repo token asset w hmem henv


/-! ## Consequences for one iteration and for the loop -/

theorem syncAsset_store_subset (env : Environ) (owner repo token : String) (o : AssetOracle)
    (asset : Asset) (w : World) :
    w.store ⊆ (syncAsset env owner repo token o asset w).2.store := by
  have h := syncAsset_shape env owner repo token o asset w
  rcases hs : syncAsset env owner repo token o asset w with ⟨r, w1⟩
  rw [hs] at h
  cases h <;> intro x hx <;> simp [hx]

theorem syncAsset_continue (env : Environ) (owner repo token : String) (o : AssetOracle)
    (asset : Asset) (w w1 : World)
    (hs : syncAsset env owner repo token o asset w = (none, w1)) :
    (asset.Name ∈ w.store ∧
        w1 = ⟨w.store, w.files, w.trace ++ outcomeEvents env owner repo token asset .Skipped⟩) ∨
      (asset.Name ∉ w.store ∧
        w1 = ⟨w.store.insert asset.Name,
          (w.files.insert asset.Name).filter (fun f => f ≠ asset.Name),
          w.trace ++ outcomeEvents env owner repo token asset .Mirrored⟩) := by
  have h := syncAsset_shape env owner repo token o asset w
  rw [hs] at h
  cases h with
  | skipped hmem => exact Or.inl ⟨hmem, rfl⟩
  | mirrored hmem _ => exact Or.inr ⟨hmem, rfl⟩

theorem syncAssets_ne_error (env : Environ) (owner repo token : String)
    (oracle : Nat → AssetOracle) (assets : List Asset) :
    ∀ (i : Nat) (w : World) (e : String),
      (syncAssets env owner repo token oracle i assets w).1 ≠ .error e := by
  induction assets with
  | nil => intro i w e; simp [syncAssets]
  | cons a rest ih =>
    intro i w e
    rcases hs : syncAsset env owner repo token (oracle i) a w with ⟨r, w1⟩
    cases r with
    | some msg => simp [syncAssets_cons_fatal env owner repo token oracle i a rest w w1 msg hs]
    | none =>
      rw [syncAssets_cons_continue env owner repo token oracle i a rest w w1 hs]
      exact ih (i + 1) w1 e

theorem syncAssets_store_subset (env : Environ) (owner repo token : String)
    (oracle : Nat → AssetOracle) (assets : List Asset) :
    ∀ (i : Nat) (w : World),
      w.store ⊆ (syncAssets env owner repo token oracle i assets w).2.store := by
  induction assets with
  | nil => intro i w; simp [syncAssets]
  | cons a rest ih =>
    intro i w
    have hsub := syncAsset_store_subset env owner repo token (oracle i) a w
    rcases hs : syncAsset env owner repo token (oracle i) a w with ⟨r, w1⟩
    rw [hs] at hsub
    cases r with
    | some msg =>
      rw [syncAssets_cons_fatal env owner repo token oracle i a rest w w1 msg hs]
      exact hsub
    | none =>
      rw [syncAssets_cons_continue env owner repo token oracle i a rest w w1 hs]
      exact fun x hx => ih (i + 1) w1 (hsub hx)

theorem storeAfter_mem (assets : List Asset) :
    ∀ (store : List String),
      (∀ x ∈ store, x ∈ storeAfter store assets) ∧
        ∀ a ∈ assets, a.Name ∈ storeAfter store assets := by
  induction assets with
  | nil => intro store; simp [storeAfter]
  | cons a rest ih =>
    intro store
    have h := ih (store.insert a.Name)
    simp only [storeAfter, List.foldl_cons] at h ⊢
    refine ⟨fun x hx => h.1 x (by simp [hx]), ?_⟩
    intro b hb
    rcases List.mem_cons.mp hb with rfl | hb
    · exact h.1 _ (by simp)
    · exact h.2 b hb

theorem classify_length (assets : List Asset) :
    ∀ (store : List String), (classify store assets).length = assets.length := by
  induction assets with
  | nil => intro store; simp [classify]
  | cons a rest ih =>
    intro store
    by_cases h : a.Name ∈ store <;> simp [classify, h, ih]

theorem classify_ne_failed (assets : List Asset) :
    ∀ (store : List String), ∀ c ∈ classify store assets, c = .Skipped ∨ c = .Mirrored := by
  induction assets with
  | nil => intro store c hc; simp [classify] at hc
  | cons a rest ih =>
    intro store c hc
    by_cases h : a.Name ∈ store
    · simp only [classify, h, if_true, List.mem_cons] at hc
      rcases hc with rfl | hc
      · exact Or.inl rfl
      · exact ih store c hc
    · simp only [classify, h, if_false, List.mem_cons] at hc
      rcases hc with rfl | hc
      · exact Or.inr rfl
      · exact ih _ c hc

/-- A loop that completes leaves the bucket with every asset name added, and
has made exactly the calls of each asset's classification, asset by asset. -/
theorem syncAssets_success (env : Environ) (owner repo token : String)
    (oracle : Nat → AssetOracle) (assets : List Asset) :
    ∀ (i : Nat) (w w1 : World),
      syncAssets env owner repo token oracle i assets w = (.success, w1) →
      w1.store = storeAfter w.store assets ∧
        w1.trace = w.trace ++
          (List.zipWith (outcomeEvents env owner repo token) assets
            (classify w.store assets)).flatten := by
  induction assets with
  | nil =>
    intro i w w1 h
    simp [syncAssets] at h
    subst h
    simp [storeAfter, classify]
  | cons a rest ih =>
    intro i w w1 h
    rcases hs : syncAsset env owner repo token (oracle i) a w with ⟨r, w2⟩
    cases r with
    | some msg =>
      rw [syncAssets_cons_fatal env owner repo token oracle i a rest w w2 msg hs] at h
      simp at h
    | none =>
      rw [syncAssets_cons_continue env owner repo token oracle i a rest w w2 hs] at h
      have hrest := ih (i + 1) w2 w1 h
      rcases syncAsset_continue env owner repo token (oracle i) a w w2 hs with
        ⟨hmem, hw2⟩ | ⟨hmem, hw2⟩
      · subst hw2
        simp only [storeAfter, List.foldl_cons, classify, hmem, if_true, List.zipWith_cons_cons,
          List.flatten_cons] at hrest ⊢
        rw [List.insert_of_mem hmem]
        exact ⟨hrest.1, by rw [hrest.2, List.append_assoc]⟩
      · subst hw2
        simp only [storeAfter, List.foldl_cons, classify, hmem, if_false,
          List.zipWith_cons_cons, List.flatten_cons] at hrest ⊢
        exact ⟨hrest.1, by rw [hrest.2, List.append_assoc]⟩


theorem downloadLatestAssets_of_reaches (env : Environ) (f : FetchOracle)
    (oracle : Nat → AssetOracle) (owner repo token : String) (w : World) (rel : ResponseBody)
    (pre : List Asset) (asset : Asset) (post : List Asset) (w1 : World)
    (hreach : ReachesAsset env f oracle owner repo token w rel pre asset post w1) :
    downloadLatestAssets env f oracle owner repo token w =
      syncAssets env owner repo token oracle pre.length (asset :: post) w1 := by
  obtain ⟨hf, hrel, hpre⟩ := hreach
  rw [downloadLatestAssets_of_delivers env f oracle owner repo token w rel hf, hrel,
    syncAssets_append env owner repo token oracle pre (asset :: post) 0 _ w1 hpre]
  simp

/-- A run that completes successfully leaves every asset name of the release in
the bucket. -/
theorem success_names_present (env : Environ) (f : FetchOracle) (oracle : Nat → AssetOracle)
    (owner repo token : String) (w : World) (rel : ResponseBody)
    (hf : f.delivers rel)
    (hok : (downloadLatestAssets env f oracle owner repo token w).1 = .success) :
    ∀ a ∈ rel.Assets, a.Name ∈ (downloadLatestAssets env f oracle owner repo token w).2.store := by
  rw [downloadLatestAssets_of_delivers env f oracle owner repo token w rel hf] at hok ⊢
  rcases hr : syncAssets env owner repo token oracle 0 rel.Assets
    (w.record (fetchEvent owner repo token)) with ⟨e, w1⟩
  rw [hr] at hok
  simp only at hok
  subst hok
  obtain ⟨hstore, _⟩ := syncAssets_success env owner repo token oracle rel.Assets 0 _ w1 hr
  intro a ha
  rw [hstore]
  exact (storeAfter_mem rel.Assets _).2 a ha

/-- For the eight values that `main` compares with the empty string, a missing
or empty value ends `main` with a fatal exit before any network call: the
world, trace included, is the initial one. -/
theorem main_aborts_on_missing_checked_value (env : Environ) (s : StartupOracle)
    (f : FetchOracle) (oracle : Nat → AssetOracle) (w : World)
    (h : Getenv env "GITHUB_OWNER" = "" ∨ Getenv env "GITHUB_REPO" = "" ∨
      Getenv env "GITHUB_TOKEN" = "" ∨ Getenv env "COS_BUCKET" = "" ∨
      Getenv env "COS_REGION" = "" ∨ Getenv env "COS_SECRET_ID" = "" ∨
      Getenv env "COS_SECRET_KEY" = "" ∨ Getenv env "DISCORD_CHANNEL_ID" = "") :
    ∃ msg, main env s f oracle w = (.fatal msg, w) := by
  unfold main
  cases s.dotenvErr with
  | some e => exact ⟨_, rfl⟩
  | none =>
    simp only
    cases hcos : initCOS env s with
    | some msg => exact ⟨_, rfl⟩
    | none =>
      simp only
      cases hdis : initDiscordBot env s with
      | some msg => exact ⟨_, rfl⟩
      | none =>
        simp only
        have hc : Getenv env "COS_SECRET_ID" ≠ "" ∧ Getenv env "COS_SECRET_KEY" ≠ "" ∧
            Getenv env "COS_REGION" ≠ "" ∧ Getenv env "COS_BUCKET" ≠ "" := by
          unfold initCOS getTencentBucketURL at hcos
          by_cases h1 : Getenv env "COS_SECRET_ID" = "" ∨ Getenv env "COS_SECRET_KEY" = ""
          · simp [h1] at hcos
          · by_cases h2 : Getenv env "COS_REGION" = "" ∨ Getenv env "COS_BUCKET" = ""
            · simp [h1, h2] at hcos
            · exact ⟨fun h => h1 (Or.inl h), fun h => h1 (Or.inr h),
                fun h => h2 (Or.inl h), fun h => h2 (Or.inr h)⟩
        have hd : Getenv env "DISCORD_CHANNEL_ID" ≠ "" := by
          unfold initDiscordBot at hdis
          intro h3
          cases hn : s.discordNewErr ("Bot " ++ Getenv env "DISCORD_TOKEN") with
          | some e => simp [hn] at hdis
          | none => simp [hn, h3] at hdis
        by_cases ho : (Getenv env "GITHUB_OWNER").length = 0
        · exact ⟨_, by rw [if_pos ho]⟩
        by_cases hr : (Getenv env "GITHUB_REPO").length = 0
        · exact ⟨_, by rw [if_neg ho, if_pos hr]⟩
        by_cases ht : (Getenv env "GITHUB_TOKEN").length = 0
        · exact ⟨_, by rw [if_neg ho, if_neg hr, if_pos ht]⟩
        exfalso
        rcases h with h | h | h | h | h | h | h | h
        · exact ho (by rw [h]; rfl)
        · exact hr (by rw [h]; rfl)
        · exact ht (by rw [h]; rfl)
        · exact hc.2.2.2 h
        · exact hc.2.2.1 h
        · exact hc.1 h
        · exact hc.2.1 h
        · exact hd h

/-- A loop that completes leaves no local file named after an asset it had to
transfer (one whose name was not in the bucket at the start), and adds no file
to the working directory. -/
theorem syncAssets_success_files (env : Environ) (owner repo token : String)
    (oracle : Nat → AssetOracle) (assets : List Asset) :
    ∀ (i : Nat) (w w1 : World),
      syncAssets env owner repo token oracle i assets w = (.success, w1) →
      w1.files ⊆ w.files ∧ ∀ a ∈ assets, a.Name ∉ w.store → a.Name ∉ w1.files := by
  induction assets with
  | nil =>
    intro i w w1 h
    simp [syncAssets] at h
    subst h
    simp
  | cons b rest ih =>
    intro i w w1 h
    rcases hs : syncAsset env owner repo token (oracle i) b w with ⟨r, w2⟩
    cases r with
    | some msg =>
      rw [syncAssets_cons_fatal env owner repo token oracle i b rest w w2 msg hs] at h
      simp at h
    | none =>
      rw [syncAssets_cons_continue env owner repo token oracle i b rest w w2 hs] at h
      obtain ⟨hsub, hrest⟩ := ih (i + 1) w2 w1 h
      rcases syncAsset_continue env owner repo token (oracle i) b w w2 hs with
        ⟨hmem, hw2⟩ | ⟨hmem, hw2⟩
      · subst hw2
        refine ⟨hsub, ?_⟩
        intro a ha hna
        rcases List.mem_cons.mp ha with rfl | ha
        · exact absurd hmem hna
        · exact hrest a ha hna
      · subst hw2
        have hfilter : ∀ x, x ∈ List.filter (fun f => decide (f ≠ b.Name))
            (List.insert b.Name w.files) → x ∈ w.files ∧ x ≠ b.Name := by
          intro x hx
          simp only [List.mem_filter, List.mem_insert_iff, decide_eq_true_eq] at hx
          rcases hx with ⟨rfl | hx, hne⟩
          · exact absurd rfl hne
          · exact ⟨hx, hne⟩
        refine ⟨fun x hx => (hfilter x (hsub hx)).1, ?_⟩
        intro a ha hna
        by_cases hab : a.Name = b.Name
        · intro hin
          exact (hfilter _ (hsub hin)).2 hab
        · rcases List.mem_cons.mp ha with rfl | ha
          · exact absurd rfl hab
          · exact hrest a ha (by simp [hab, hna])

/-! ## A loop over assets that are all present -/

theorem syncAsset_of_mem (env : Environ) (owner repo token : String) (o : AssetOracle)
    (asset : Asset) (w : World) (hmem : asset.Name ∈ w.store) :
    (syncAsset env owner repo token o asset w).2.store = w.store ∧
      (syncAsset env owner repo token o asset w).2.files = w.files ∧
      ∃ res, (syncAsset env owner repo token o asset w).2.trace =
        w.trace ++ [.isExist asset.Name res] := by
  have h := syncAsset_shape env owner repo token o asset w
  rcases hs : syncAsset env owner repo token o asset w with ⟨r, w1⟩
  rw [hs] at h
  cases h with
  | checkFailed msg => exact ⟨rfl, rfl, none, rfl⟩
  | skipped _ => exact ⟨rfl, rfl, some true, rfl⟩
  | downloadFailed _ _ _ h => exact absurd hmem h
  | uploadFailed _ _ h => exact absurd hmem h
  | urlFatal _ h => exact absurd hmem h
  | sendFailed _ _ h _ => exact absurd hmem h
  | removeFailed _ h _ => exact absurd hmem h
  | mirrored h _ => exact absurd hmem h

theorem syncAssets_of_all_mem (env : Environ) (owner repo token : String)
    (oracle : Nat → AssetOracle) (assets : List Asset) :
    ∀ (i : Nat) (w : World), (∀ a ∈ assets, a.Name ∈ w.store) →
      (syncAssets env owner repo token oracle i assets w).2.store = w.store ∧
        (syncAssets env owner repo token oracle i assets w).2.files = w.files ∧
        ∃ evs, (syncAssets env owner repo token oracle i assets w).2.trace = w.trace ++ evs ∧
          ∀ e ∈ evs, e.isTransferOrNotify = false := by
  induction assets with
  | nil => intro i w _; exact ⟨rfl, rfl, [], by simp [syncAssets], by simp⟩
  | cons a rest ih =>
    intro i w hall
    obtain ⟨hst, hfi, res, htr⟩ :=
      syncAsset_of_mem env owner repo token (oracle i) a w (hall a (by simp))
    rcases hs : syncAsset env owner repo token (oracle i) a w with ⟨r, w1⟩
    rw [hs] at hst hfi htr
    simp only at hst hfi htr
    cases r with
    | some msg =>
      rw [syncAssets_cons_fatal env owner repo token oracle i a rest w w1 msg hs]
      refine ⟨hst, hfi, [.isExist a.Name res], htr, ?_⟩
      intro e he
      simp at he
      subst he
      rfl
    | none =>
      rw [syncAssets_cons_continue env owner repo token oracle i a rest w w1 hs]
      obtain ⟨hst2, hfi2, evs, htr2, hev⟩ := ih (i + 1) w1 (by
        intro b hb
        rw [hst]
        exact hall b (by simp [hb]))
      refine ⟨hst2.trans hst, hfi2.trans hfi, .isExist a.Name res :: evs, ?_, ?_⟩
      · rw [htr2, htr]; simp
      · intro e he
        rcases List.mem_cons.mp he with rfl | he
        · rfl
        · exact hev e he

theorem syncAssets_of_all_mem_answered (env : Environ) (owner repo token : String)
    (oracle : Nat → AssetOracle) (assets : List Asset) :
    ∀ (i : Nat) (w : World), (∀ a ∈ assets, a.Name ∈ w.store) →
      (∀ j, i ≤ j → j < i + assets.length → (oracle j).existErr = none) →
      syncAssets env owner repo token oracle i assets w =
        (.success, ⟨w.store, w.files,
          w.trace ++ assets.map (fun a => Event.isExist a.Name (some true))⟩) := by
  induction assets with
  | nil => intro i w _ _; simp [syncAssets]
  | cons a rest ih =>
    intro i w hall hans
    have hcheck : (hasFileAtTencentCOS (oracle i) a.Name w).1 = .ok true := by
      simp [hasFileAtTencentCOS, hans i (Nat.le_refl i) (by simp), hall a (by simp)]
    rw [syncAssets_cons_continue env owner repo token oracle i a rest w _
      (syncAsset_present env owner repo token (oracle i) a w hcheck),
      ih (i + 1) (w.record (.isExist a.Name (some true)))
        (fun b hb => hall b (by simp [hb]))
        (fun j h1 h2 => hans j (by omega) (by simp only [List.length_cons]; omega))]
    simp [World.record]

theorem classify_of_all_mem (assets : List Asset) (store : List String)
    (hall : ∀ a ∈ assets, a.Name ∈ store) :
    classify store assets = assets.map (fun _ => SyncOutcome.Skipped) := by
  induction assets with
  | nil => simp [classify]
  | cons a rest ih =>
    simp [classify, hall a (by simp), ih (fun b hb => hall b (by simp [hb]))]

/-! ## Order of uploads and posts -/

/-- C1 (no residue), evaluated where the code departs from it: for the release
`[a.zip]` with `a.zip` not in the bucket, when the put fails, when writing the
downloaded bytes fails, and when the message post fails, the run ends with a
fatal exit and the local file `a.zip` is still in the working directory. -/
theorem staging_file_left_on_abort :
    downloadLatestAssets demoEnv (deliver [aZip]) (fun _ => putFails) "acme" "tool" "ghp"
        emptyWorld =
      (.fatal "Failed to upload a.zip. Error: 503 Service Unavailable\n",
        ⟨[], ["a.zip"],
          [.releaseGet "https://api.github.com/repos/acme/tool/releases/latest" "ghp"
              (some 200),
            .isExist "a.zip" (some false),
            .assetGet "https://api.github.com/repos/acme/tool/releases/assets/1" "ghp"
              (some 200),
            .put "a.zip" (some "503 Service Unavailable")]⟩) ∧
      (downloadLatestAssets demoEnv (deliver [aZip]) (fun _ => copyFails) "acme" "tool" "ghp"
          emptyWorld).1 = .fatal "Failed to download a.zip. Error: unexpected EOF\n" ∧
      "a.zip" ∈ (downloadLatestAssets demoEnv (deliver [aZip]) (fun _ => copyFails) "acme"
        "tool" "ghp" emptyWorld).2.files ∧
      (downloadLatestAssets demoEnv (deliver [aZip]) (fun _ => sendFails) "acme" "tool" "ghp"
          emptyWorld).1 = .fatal "Error sending message: HTTP 401 Unauthorized" ∧
      "a.zip" ∈ (downloadLatestAssets demoEnv (deliver [aZip]) (fun _ => sendFails) "acme"
        "tool" "ghp" emptyWorld).2.files := by
  decide

/-- C2 (missing configuration), evaluated where the code departs from it: in
an environment that has every required value except `DISCORD_TOKEN`, `main`
passes its configuration checks and goes on to the network: it fetches the
release, checks, downloads and uploads `a.zip`, and ends only when the message
post is refused. -/
theorem missing_discord_token_reaches_network :
    Getenv noTokenEnv "DISCORD_TOKEN" = "" ∧
      main noTokenEnv startupGood (deliver [aZip]) (fun _ => sendFails) emptyWorld =
        (.fatal "Error sending message: HTTP 401 Unauthorized",
          ⟨["a.zip"], ["a.zip"],
            [.releaseGet "https://api.github.com/repos/acme/tool/releases/latest" "ghp"
                (some 200),
              .isExist "a.zip" (some false),
              .assetGet "https://api.github.com/repos/acme/tool/releases/assets/1" "ghp"
                (some 200),
              .put "a.zip" none,
              .send "42" "New Release :> https://mybucket.cos.ap-guangzhou.myqcloud.com/a.zip"
                (some "HTTP 401 Unauthorized")]⟩) := by
  decide

/-- C3 (idempotence). After a first run of `downloadLatestAssets` on a fetched
release has completed successfully, a second run on the same release from a
world with the same bucket content makes no download, no upload and no
notification and leaves the bucket and the working directory as they are,
whatever the outside world answers; and when the bucket answers the existence
checks (it behaves as the set of its names), the second run succeeds, its calls
are the release fetch and one existence check per asset, each answering true,
and every asset is classified `Skipped`. -/
theorem idempotence (env : Environ) (f1 f2 : FetchOracle) (oracle1 oracle2 : Nat → AssetOracle)
    (owner repo token : String) (w w2 : World) (rel : ResponseBody)
    (hf1 : f1.delivers rel)
    (hok : (downloadLatestAssets env f1 oracle1 owner repo token w).1 = .success)
    (hf2 : f2.delivers rel)
    (hstore : w2.store = (downloadLatestAssets env f1 oracle1 owner repo token w).2.store) :
    ((downloadLatestAssets env f2 oracle2 owner repo token w2).2.store = w2.store ∧
        (downloadLatestAssets env f2 oracle2 owner repo token w2).2.files = w2.files ∧
        ∀ e ∈ newEvents w2 (downloadLatestAssets env f2 oracle2 owner repo token w2).2,
          e.isTransferOrNotify = false) ∧
      ((∀ i, i < rel.Assets.length → (oracle2 i).existErr = none) →
        (downloadLatestAssets env f2 oracle2 owner repo token w2).1 = .success ∧
          newEvents w2 (downloadLatestAssets env f2 oracle2 owner repo token w2).2 =
            fetchEvent owner repo token ::
              rel.Assets.map (fun a => Event.isExist a.Name (some true)) ∧
          classify w2.store rel.Assets = rel.Assets.map (fun _ => SyncOutcome.Skipped)) := by
  have hall : ∀ a ∈ rel.Assets, a.Name ∈ w2.store := by
    intro a ha
    rw [hstore]
    exact (success_names_present env f1 oracle1 owner repo token w rel hf1 hok) a ha
  rw [downloadLatestAssets_of_delivers env f2 oracle2 owner repo token w2 rel hf2]
  constructor
  · obtain ⟨hst, hfi, evs, htr, hev⟩ :=
      syncAssets_of_all_mem env owner repo token oracle2 rel.Assets 0
        (w2.record (fetchEvent owner repo token)) hall
    refine ⟨hst, hfi, ?_⟩
    intro e he
    rw [newEvents, htr] at he
    simp [World.record] at he
    rcases he with rfl | he
    · rfl
    · exact hev e he
  · intro hans
    rw [syncAssets_of_all_mem_answered env owner repo token oracle2 rel.Assets 0
      (w2.record (fetchEvent owner repo token)) hall (fun j _ h => hans j (by omega))]
    refine ⟨rfl, ?_, classify_of_all_mem rel.Assets w2.store hall⟩
    simp [newEvents, World.record]

/-- Scenario A run twice: the second run makes the release fetch and two
existence checks that answer true, and succeeds. -/
theorem idempotence_witness :
    (deliver [aZip, bZip]).delivers ⟨"v1.2.0", [aZip, bZip]⟩ ∧
      (downloadLatestAssets demoEnv (deliver [aZip, bZip]) (fun _ => allGood) "acme" "tool"
        "ghp" emptyWorld).1 = .success ∧
      downloadLatestAssets demoEnv (deliver [aZip, bZip]) (fun _ => allGood) "acme" "tool"
          "ghp" ⟨["b.zip", "a.zip"], [], []⟩ =
        (.success, ⟨["b.zip", "a.zip"], [],
          [.releaseGet "https://api.github.com/repos/acme/tool/releases/latest" "ghp"
              (some 200),
            .isExist "a.zip" (some true),
            .isExist "b.zip" (some true)]⟩) ∧
      classify ["b.zip", "a.zip"] [aZip, bZip] = [.Skipped, .Skipped] :=
  have hf : (deliver [aZip, bZip]).delivers ⟨"v1.2.0", [aZip, bZip]⟩ :=
    ⟨rfl, rfl, rfl, rfl, rfl⟩
  have h := idempotence demoEnv (deliver [aZip, bZip]) (deliver [aZip, bZip])
    (fun _ => allGood) (fun _ => allGood) "acme" "tool" "ghp" emptyWorld
    ⟨["b.zip", "a.zip"], [], []⟩ ⟨"v1.2.0", [aZip, bZip]⟩ hf (by decide) hf (by decide)
  ⟨hf, by decide, by decide, (h.2 (fun _ _ => rfl)).2.2⟩

/-- C4 (notification content). Every message the iteration for an asset hands
to the chat post is the text `New Release :> ` followed by the value of
`getTencentCOSURL` for the asset's name, and that value is `https://`, the
bucket, `.cos.`, the region, `.myqcloud.com`, `/` and the name as it is. -/
theorem notification_content (env : Environ) (owner repo token : String) (o : AssetOracle)
    (asset : Asset) (w : World) (channel msg : String) (err : Option String)
    (hsent : Event.send channel msg err ∈
      newEvents w (syncAsset env owner repo token o asset w).2) :
    getTencentCOSURL env asset.Name =
        .ok ("https://" ++ Getenv env "COS_BUCKET" ++ ".cos." ++ Getenv env "COS_REGION" ++
          ".myqcloud.com" ++ "/" ++ asset.Name) ∧
      msg = "New Release :> " ++ ("https://" ++ Getenv env "COS_BUCKET" ++ ".cos." ++
        Getenv env "COS_REGION" ++ ".myqcloud.com" ++ "/" ++ asset.Name) ∧
      Event.put asset.Name none ∈ newEvents w (syncAsset env owner repo token o asset w).2 := by
  have hurl : ¬(Getenv env "COS_REGION" = "" ∨ Getenv env "COS_BUCKET" = "") →
      getTencentCOSURL env asset.Name =
        .ok ("https://" ++ Getenv env "COS_BUCKET" ++ ".cos." ++ Getenv env "COS_REGION" ++
          ".myqcloud.com" ++ "/" ++ asset.Name) := by
    intro henv
    simp [getTencentCOSURL, getTencentBucketURL, henv]
  have h := syncAsset_shape env owner repo token o asset w
  rcases hs : syncAsset env owner repo token o asset w with ⟨r, w1⟩
  rw [hs] at h hsent
  cases h with
  | checkFailed _ => simp [newEvents] at hsent
  | skipped _ => simp [newEvents] at hsent
  | downloadFailed _ _ _ _ hevs =>
    rcases hevs with rfl | ⟨st, rfl⟩ <;> simp [newEvents] at hsent
  | uploadFailed _ _ _ hevs =>
    rcases hevs with rfl | ⟨e, rfl⟩ <;> simp [newEvents] at hsent
  | urlFatal _ _ _ => simp [newEvents] at hsent
  | sendFailed _ _ _ henv =>
    simp [newEvents] at hsent
    exact ⟨hurl henv, by rw [hsent.2.1]; rfl, by simp [newEvents]⟩
  | removeFailed _ _ henv =>
    simp [newEvents] at hsent
    exact ⟨hurl henv, by rw [hsent.2.1]; rfl, by simp [newEvents]⟩
  | mirrored _ henv =>
    simp [newEvents] at hsent
    exact ⟨hurl henv, by rw [hsent.2.1]; rfl, by simp [newEvents]⟩

/-- The specification's example: bucket `mybucket`, region `ap-guangzhou` and
asset `tool-v1.2.0.tar.gz`. -/
theorem notification_content_witness :
    Event.send "42"
        "New Release :> https://mybucket.cos.ap-guangzhou.myqcloud.com/tool-v1.2.0.tar.gz"
        none ∈
        newEvents fetchedWorld
          (syncAsset demoEnv "acme" "tool" "ghp" allGood toolTarball fetchedWorld).2 ∧
      getTencentCOSURL demoEnv "tool-v1.2.0.tar.gz" =
        .ok "https://mybucket.cos.ap-guangzhou.myqcloud.com/tool-v1.2.0.tar.gz" ∧
      postedMessages (newEvents fetchedWorld
          (syncAsset demoEnv "acme" "tool" "ghp" allGood toolTarball fetchedWorld).2) =
        ["New Release :> https://mybucket.cos.ap-guangzhou.myqcloud.com/tool-v1.2.0.tar.gz"] :=
  ⟨by decide,
    (notification_content demoEnv "acme" "tool" "ghp" allGood toolTarball fetchedWorld "42"
      "New Release :> https://mybucket.cos.ap-guangzhou.myqcloud.com/tool-v1.2.0.tar.gz" none
      (by decide)).1,
    by decide⟩

/-- C5 (coverage on success). When the run of `downloadLatestAssets` on a
fetched release completes successfully, every asset of the release has exactly
one classification, `Skipped` or `Mirrored`; the calls of the run are the
release fetch followed, asset by asset in delivered order, by the calls of the
asset's classification (for `Skipped` the existence check that answered true,
for `Mirrored` the existence check that answered false, one download, one
upload, one notification, in that order); and every asset name of the release
is in the bucket at the end. -/
theorem coverage_on_success (env : Environ) (f : FetchOracle) (oracle : Nat → AssetOracle)
    (owner repo token : String) (w : World) (rel : ResponseBody)
    (hf : f.delivers rel)
    (hok : (downloadLatestAssets env f oracle owner repo token w).1 = .success) :
    (classify w.store rel.Assets).length = rel.Assets.length ∧
      (∀ c ∈ classify w.store rel.Assets, c = .Skipped ∨ c = .Mirrored) ∧
      newEvents w (downloadLatestAssets env f oracle owner repo token w).2 =
        fetchEvent owner repo token ::
          (List.zipWith (outcomeEvents env owner repo token) rel.Assets
            (classify w.store rel.Assets)).flatten ∧
      (∀ a ∈ rel.Assets,
        a.Name ∈ (downloadLatestAssets env f oracle owner repo token w).2.store) ∧
      (downloadLatestAssets env f oracle owner repo token w).2.store =
        storeAfter w.store rel.Assets := by
  rw [downloadLatestAssets_of_delivers env f oracle owner repo token w rel hf] at hok ⊢
  rcases hr : syncAssets env owner repo token oracle 0 rel.Assets
    (w.record (fetchEvent owner repo token)) with ⟨e, w1⟩
  rw [hr] at hok
  simp only at hok
  subst hok
  obtain ⟨hstore, htrace⟩ := syncAssets_success env owner repo token oracle rel.Assets 0 _ w1 hr
  simp only [World.record] at hstore htrace
  refine ⟨classify_length _ _, classify_ne_failed _ _, ?_, ?_, hstore⟩
  · simp [newEvents, htrace]
  · intro a ha
    rw [hstore]
    exact (storeAfter_mem rel.Assets w.store).2 a ha

/-- Scenario A: the release `[a.zip, b.zip]`, neither present, every call
succeeding: the run succeeds with two downloads, two uploads and two
notifications, both names in the bucket and no local file left. -/
theorem coverage_on_success_witness :
    (deliver [aZip, bZip]).delivers ⟨"v1.2.0", [aZip, bZip]⟩ ∧
      downloadLatestAssets demoEnv (deliver [aZip, bZip]) (fun _ => allGood)
          "acme" "tool" "ghp" emptyWorld =
        (.success,
          { store := ["b.zip", "a.zip"],
            files := [],
            trace :=
              [.releaseGet "https://api.github.com/repos/acme/tool/releases/latest" "ghp"
                  (some 200),
                .isExist "a.zip" (some false),
                .assetGet "https://api.github.com/repos/acme/tool/releases/assets/1" "ghp"
                  (some 200),
                .put "a.zip" none,
                .send "42" "New Release :> https://mybucket.cos.ap-guangzhou.myqcloud.com/a.zip"
                  none,
                .isExist "b.zip" (some false),
                .assetGet "https://api.github.com/repos/acme/tool/releases/assets/2" "ghp"
                  (some 200),
                .put "b.zip" none,
                .send "42" "New Release :> https://mybucket.cos.ap-guangzhou.myqcloud.com/b.zip"
                  none] }) ∧
      classify emptyWorld.store [aZip, bZip] = [.Mirrored, .Mirrored] ∧
      (∀ a ∈ [aZip, bZip],
        a.Name ∈ (downloadLatestAssets demoEnv (deliver [aZip, bZip]) (fun _ => allGood)
          "acme" "tool" "ghp" emptyWorld).2.store) :=
  ⟨⟨rfl, rfl, rfl, rfl, rfl⟩, by decide, by decide,
    (coverage_on_success demoEnv (deliver [aZip, bZip]) (fun _ => allGood)
      "acme" "tool" "ghp" emptyWorld ⟨"v1.2.0", [aZip, bZip]⟩ ⟨rfl, rfl, rfl, rfl, rfl⟩
      (by decide)).2.2.2.1⟩

/-- C6 (skip when present). When the run gets to an asset and the existence
check of that asset returns true, the iteration makes no other call (no
download, no upload, no notification), leaves the bucket and the working
directory as they were, and the run goes on with the next asset. -/
theorem skip_when_present (env : Environ) (f : FetchOracle) (oracle : Nat → AssetOracle)
    (owner repo token : String) (w : World) (rel : ResponseBody)
    (pre : List Asset) (asset : Asset) (post : List Asset) (w1 : World)
    (hreach : ReachesAsset env f oracle owner repo token w rel pre asset post w1)
    (hcheck : (hasFileAtTencentCOS (oracle pre.length) asset.Name w1).1 = .ok true) :
    syncAsset env owner repo token (oracle pre.length) asset w1 =
        (none, ⟨w1.store, w1.files, w1.trace ++ [.isExist asset.Name (some true)]⟩) ∧
      downloadLatestAssets env f oracle owner repo token w =
        syncAssets env owner repo token oracle (pre.length + 1) post
          ⟨w1.store, w1.files, w1.trace ++ [.isExist asset.Name (some true)]⟩ := by
  have hstep := syncAsset_present env owner repo token (oracle pre.length) asset w1 hcheck
  refine ⟨hstep, ?_⟩
  rw [downloadLatestAssets_of_reaches env f oracle owner repo token w rel pre asset post w1
    hreach]
  exact syncAssets_cons_continue env owner repo token oracle pre.length asset post w1 _ hstep

/-- Scenario B: the release `[a.zip]` with `a.zip` already in the bucket: the
only calls are the release fetch and the existence check, and the run
succeeds. -/
theorem skip_when_present_witness :
    ReachesAsset demoEnv (deliver [aZip]) (fun _ => allGood) "acme" "tool" "ghp"
        ⟨["a.zip"], [], []⟩ ⟨"v1.2.0", [aZip]⟩ [] aZip []
        ⟨["a.zip"], [],
          [.releaseGet "https://api.github.com/repos/acme/tool/releases/latest" "ghp"
            (some 200)]⟩ ∧
      downloadLatestAssets demoEnv (deliver [aZip]) (fun _ => allGood) "acme" "tool" "ghp"
          ⟨["a.zip"], [], []⟩ =
        (.success, ⟨["a.zip"], [],
          [.releaseGet "https://api.github.com/repos/acme/tool/releases/latest" "ghp"
            (some 200),
            .isExist "a.zip" (some true)]⟩) :=
  ⟨⟨⟨rfl, rfl, rfl, rfl, rfl⟩, rfl, rfl⟩,
    (skip_when_present demoEnv (deliver [aZip]) (fun _ => allGood) "acme" "tool" "ghp"
      ⟨["a.zip"], [], []⟩ ⟨"v1.2.0", [aZip]⟩ [] aZip [] _
      ⟨⟨rfl, rfl, rfl, rfl, rfl⟩, rfl, rfl⟩ rfl).2⟩

/-- C7 (fail-fast on a failed existence check). When the run gets to the asset
at position `i` and its existence check returns an error, the run ends there
with a fatal exit: the world is the one the first `i` assets left, with only
the failed check added to the trace (so no download, upload, notification or
further check is made and the bucket is as the first `i` assets left it), and
when `i` is the first asset the bucket is the initial one. -/
theorem fail_fast_on_failed_check (env : Environ) (f : FetchOracle)
    (oracle : Nat → AssetOracle) (owner repo token : String) (w : World) (rel : ResponseBody)
    (pre : List Asset) (asset : Asset) (post : List Asset) (w1 : World) (err : String)
    (hreach : ReachesAsset env f oracle owner repo token w rel pre asset post w1)
    (herr : (oracle pre.length).existErr = some err) :
    downloadLatestAssets env f oracle owner repo token w =
        (.fatal ("Failed to check " ++ asset.Name ++ ". Error: " ++ err ++ "\n"),
          ⟨w1.store, w1.files, w1.trace ++ [.isExist asset.Name none]⟩) ∧
      (pre = [] →
        (downloadLatestAssets env f oracle owner repo token w).2.store = w.store) := by
  have hrun : downloadLatestAssets env f oracle owner repo token w =
      (.fatal ("Failed to check " ++ asset.Name ++ ". Error: " ++ err ++ "\n"),
        ⟨w1.store, w1.files, w1.trace ++ [.isExist asset.Name none]⟩) := by
    rw [downloadLatestAssets_of_reaches env f oracle owner repo token w rel pre asset post w1
      hreach]
    exact syncAssets_cons_fatal env owner repo token oracle pre.length asset post w1 _ _
      (syncAsset_checkFailed env owner repo token (oracle pre.length) asset w1 err herr)
  refine ⟨hrun, ?_⟩
  intro hnil
  subst hnil
  obtain ⟨_, _, hpre⟩ := hreach
  simp [syncAssets] at hpre
  rw [hrun, ← hpre]
  rfl

/-- Scenario C: the release `[a.zip]` whose existence check fails: the run
ends with a fatal exit after that one check and the bucket is unchanged. -/
theorem fail_fast_on_failed_check_witness :
    ReachesAsset demoEnv (deliver [aZip]) (fun _ => checkFails) "acme" "tool" "ghp"
        emptyWorld ⟨"v1.2.0", [aZip]⟩ [] aZip [] fetchedWorld ∧
      downloadLatestAssets demoEnv (deliver [aZip]) (fun _ => checkFails) "acme" "tool" "ghp"
          emptyWorld =
        (.fatal "Failed to check a.zip. Error: StoreUnavailable\n", ⟨[], [],
          [.releaseGet "https://api.github.com/repos/acme/tool/releases/latest" "ghp"
            (some 200),
            .isExist "a.zip" none]⟩) :=
  have hreach : ReachesAsset demoEnv (deliver [aZip]) (fun _ => checkFails) "acme" "tool" "ghp"
      emptyWorld ⟨"v1.2.0", [aZip]⟩ [] aZip [] fetchedWorld :=
    ⟨⟨rfl, rfl, rfl, rfl, rfl⟩, rfl, rfl⟩
  ⟨hreach,
    (fail_fast_on_failed_check demoEnv (deliver [aZip]) (fun _ => checkFails) "acme" "tool"
      "ghp" emptyWorld ⟨"v1.2.0", [aZip]⟩ [] aZip [] fetchedWorld "StoreUnavailable"
      hreach rfl).1⟩

/-- C8 (fail-fast on a failed download, no rollback). When the run gets to an
asset that is not in the bucket and the request for its bytes is answered with
an HTTP status other than 200, `downloadFile` returns the error carrying the
status text and the run ends with a fatal exit: the only calls for the asset
are its existence check and the download request, nothing is uploaded or
announced, no local file is created, no later asset is attempted, the asset is
not in the bucket afterwards, and every earlier asset of the run is still in
the bucket, as is everything that was there at the start. -/
theorem fail_fast_on_failed_download (env : Environ) (f : FetchOracle)
    (oracle : Nat → AssetOracle) (owner repo token : String) (w : World) (rel : ResponseBody)
    (pre : List Asset) (asset : Asset) (post : List Asset) (w1 : World)
    (hreach : ReachesAsset env f oracle owner repo token w rel pre asset post w1)
    (hcheck : (hasFileAtTencentCOS (oracle pre.length) asset.Name w1).1 = .ok false)
    (hreq : (oracle pre.length).newRequestErr = none)
    (hdo : (oracle pre.length).doErr = none)
    (hcode : (oracle pre.length).StatusCode ≠ 200) :
    (∀ (url filename : String) (w2 : World),
        (downloadFile (oracle pre.length) url filename token w2).1 =
          some ("response.status is not 200 - " ++ (oracle pre.length).Status)) ∧
      downloadLatestAssets env f oracle owner repo token w =
        (.fatal ("Failed to download " ++ asset.Name ++ ". Error: " ++
            ("response.status is not 200 - " ++ (oracle pre.length).Status) ++ "\n"),
          ⟨w1.store, w1.files,
            w1.trace ++ [.isExist asset.Name (some false),
              .assetGet (assetURL owner repo asset) token
                (some (oracle pre.length).StatusCode)]⟩) ∧
      asset.Name ∉ (downloadLatestAssets env f oracle owner repo token w).2.store ∧
      (∀ a ∈ pre, a.Name ∈ (downloadLatestAssets env f oracle owner repo token w).2.store) ∧
      w.store ⊆ (downloadLatestAssets env f oracle owner repo token w).2.store := by
  have hdl : ∀ (url filename : String) (w2 : World),
      (downloadFile (oracle pre.length) url filename token w2).1 =
        some ("response.status is not 200 - " ++ (oracle pre.length).Status) := by
    intro url filename w2
    simp [downloadFile, hreq, hdo, hcode]
  have hex : (oracle pre.length).existErr = none ∧ asset.Name ∉ w1.store := by
    unfold hasFileAtTencentCOS at hcheck
    cases he : (oracle pre.length).existErr with
    | some e => simp [he] at hcheck
    | none => simpa [he] using hcheck
  have hstep : syncAsset env owner repo token (oracle pre.length) asset w1 =
      (some ("Failed to download " ++ asset.Name ++ ". Error: " ++
          ("response.status is not 200 - " ++ (oracle pre.length).Status) ++ "\n"),
        ⟨w1.store, w1.files,
          w1.trace ++ [.isExist asset.Name (some false),
            .assetGet (assetURL owner repo asset) token
              (some (oracle pre.length).StatusCode)]⟩) := by
    simp [syncAsset, hasFileAtTencentCOS, downloadFileFromGithub, downloadFile, hex.1, hex.2,
      hreq, hdo, hcode, World.record, assetURL]
  have hrun := syncAssets_cons_fatal env owner repo token oracle pre.length asset post w1 _ _
    hstep
  rw [← downloadLatestAssets_of_reaches env f oracle owner repo token w rel pre asset post w1
    hreach] at hrun
  obtain ⟨_, _, hpre⟩ := hreach
  have hpre2 := syncAssets_success env owner repo token oracle pre 0 _ w1 hpre
  have hsub := syncAssets_store_subset env owner repo token oracle pre 0
    (w.record (fetchEvent owner repo token))
  rw [hpre] at hsub
  refine ⟨hdl, hrun, ?_, ?_, ?_⟩
  · rw [hrun]; exact hex.2
  · intro a ha
    rw [hrun]
    show a.Name ∈ w1.store
    rw [hpre2.1]
    exact (storeAfter_mem pre _).2 a ha
  · rw [hrun]
    exact hsub

/-- Scenario D: the release `[a.zip, b.zip]`, neither present, with the
download of `b.zip` answered 404: the run ends with a fatal exit, `a.zip` is in
the bucket and `b.zip` is not. -/
theorem fail_fast_on_failed_download_witness :
    ReachesAsset demoEnv (deliver [aZip, bZip]) secondNotFound "acme" "tool" "ghp"
        emptyWorld ⟨"v1.2.0", [aZip, bZip]⟩ [aZip] bZip [] mirroredA ∧
      downloadLatestAssets demoEnv (deliver [aZip, bZip]) secondNotFound "acme" "tool" "ghp"
          emptyWorld =
        (.fatal "Failed to download b.zip. Error: response.status is not 200 - 404 Not Found\n",
          ⟨["a.zip"], [],
            [.releaseGet "https://api.github.com/repos/acme/tool/releases/latest" "ghp"
                (some 200),
              .isExist "a.zip" (some false),
              .assetGet "https://api.github.com/repos/acme/tool/releases/assets/1" "ghp"
                (some 200),
              .put "a.zip" none,
              .send "42" "New Release :> https://mybucket.cos.ap-guangzhou.myqcloud.com/a.zip"
                none,
              .isExist "b.zip" (some false),
              .assetGet "https://api.github.com/repos/acme/tool/releases/assets/2" "ghp"
                (some 404)]⟩) ∧
      "b.zip" ∉ (downloadLatestAssets demoEnv (deliver [aZip, bZip]) secondNotFound "acme"
        "tool" "ghp" emptyWorld).2.store ∧
      "a.zip" ∈ (downloadLatestAssets demoEnv (deliver [aZip, bZip]) secondNotFound "acme"
        "tool" "ghp" emptyWorld).2.store :=
  have hreach : ReachesAsset demoEnv (deliver [aZip, bZip]) secondNotFound "acme" "tool" "ghp"
      emptyWorld ⟨"v1.2.0", [aZip, bZip]⟩ [aZip] bZip [] mirroredA :=
    ⟨⟨rfl, rfl, rfl, rfl, rfl⟩, rfl, by decide⟩
  have h := fail_fast_on_failed_download demoEnv (deliver [aZip, bZip]) secondNotFound "acme"
    "tool" "ghp" emptyWorld ⟨"v1.2.0", [aZip, bZip]⟩ [aZip] bZip [] mirroredA hreach
    rfl rfl rfl (by decide)
  ⟨hreach, h.2.1, h.2.2.1, h.2.2.2.1 aZip (by decide)⟩

/-- C9 (a failed notification ends the run after the asset is stored). When
the run gets to an asset that is not in the bucket, its download and upload
succeed and the post of its message fails, the run ends with a fatal exit, the
asset's name is in the bucket (the bucket is the one the earlier assets left,
plus that name), and the trace ends with this asset's calls: nothing is
checked, downloaded, uploaded or posted for a later asset. -/
theorem notification_failure_aborts (env : Environ) (f : FetchOracle)
    (oracle : Nat → AssetOracle) (owner repo token : String) (w : World) (rel : ResponseBody)
    (pre : List Asset) (asset : Asset) (post : List Asset) (w1 : World) (err : String)
    (hreach : ReachesAsset env f oracle owner repo token w rel pre asset post w1)
    (hcheck : (hasFileAtTencentCOS (oracle pre.length) asset.Name w1).1 = .ok false)
    (htransfer : (oracle pre.length).transfers)
    (hsend : (oracle pre.length).sendErr = some err) :
    (∃ msg, (downloadLatestAssets env f oracle owner repo token w).1 = .fatal msg) ∧
      asset.Name ∈ (downloadLatestAssets env f oracle owner repo token w).2.store ∧
      (downloadLatestAssets env f oracle owner repo token w).2.store =
        w1.store.insert asset.Name ∧
      (downloadLatestAssets env f oracle owner repo token w).2.trace =
        w1.trace ++
          [.isExist asset.Name (some false),
            .assetGet (assetURL owner repo asset) token (some 200),
            .put asset.Name none] ++
          (match getTencentCOSURL env asset.Name with
            | .ok newUrl =>
              [.send (Getenv env "DISCORD_CHANNEL_ID") ("New Release :> " ++ newUrl) (some err)]
            | .error _ => []) := by
  obtain ⟨hreq, hdo, hcode, hcreate, hcopy, hopen, hput⟩ := htransfer
  have hex : (oracle pre.length).existErr = none ∧ asset.Name ∉ w1.store := by
    unfold hasFileAtTencentCOS at hcheck
    cases he : (oracle pre.length).existErr with
    | some e => simp [he] at hcheck
    | none => simpa [he] using hcheck
  rw [downloadLatestAssets_of_reaches env f oracle owner repo token w rel pre asset post w1
    hreach]
  by_cases henv : Getenv env "COS_REGION" = "" ∨ Getenv env "COS_BUCKET" = ""
  · simp [syncAssets, syncAsset, hasFileAtTencentCOS, downloadFileFromGithub, downloadFile,
      uploadFileToTencentCOS, getTencentCOSURL, getTencentBucketURL, hex.1, hex.2, hreq, hdo,
      hcode, hcreate, hcopy, hopen, hput, henv, World.record, assetURL]
  · simp [syncAssets, syncAsset, hasFileAtTencentCOS, downloadFileFromGithub, downloadFile,
      uploadFileToTencentCOS, getTencentCOSURL, getTencentBucketURL, sendMessageInDiscord,
      hex.1, hex.2, hreq, hdo, hcode, hcreate, hcopy, hopen, hput, hsend, henv, World.record,
      assetURL]

/-- A run over `[a.zip, b.zip]` in which the post for `a.zip` fails: the exit
is fatal, `a.zip` is in the bucket, and nothing is done for `b.zip`. -/
theorem notification_failure_aborts_witness :
    ReachesAsset demoEnv (deliver [aZip, bZip]) (fun _ => sendFails) "acme" "tool" "ghp"
        emptyWorld ⟨"v1.2.0", [aZip, bZip]⟩ [] aZip [bZip] fetchedWorld ∧
      (∃ msg, (downloadLatestAssets demoEnv (deliver [aZip, bZip]) (fun _ => sendFails) "acme"
        "tool" "ghp" emptyWorld).1 = .fatal msg) ∧
      "a.zip" ∈ (downloadLatestAssets demoEnv (deliver [aZip, bZip]) (fun _ => sendFails)
        "acme" "tool" "ghp" emptyWorld).2.store ∧
      (downloadLatestAssets demoEnv (deliver [aZip, bZip]) (fun _ => sendFails) "acme" "tool"
          "ghp" emptyWorld).2.trace =
        [.releaseGet "https://api.github.com/repos/acme/tool/releases/latest" "ghp" (some 200),
          .isExist "a.zip" (some false),
          .assetGet "https://api.github.com/repos/acme/tool/releases/assets/1" "ghp" (some 200),
          .put "a.zip" none,
          .send "42" "New Release :> https://mybucket.cos.ap-guangzhou.myqcloud.com/a.zip"
            (some "HTTP 401 Unauthorized")] :=
  have hreach : ReachesAsset demoEnv (deliver [aZip, bZip]) (fun _ => sendFails) "acme" "tool"
      "ghp" emptyWorld ⟨"v1.2.0", [aZip, bZip]⟩ [] aZip [bZip] fetchedWorld :=
    ⟨⟨rfl, rfl, rfl, rfl, rfl⟩, rfl, rfl⟩
  have h := notification_failure_aborts demoEnv (deliver [aZip, bZip]) (fun _ => sendFails)
    "acme" "tool" "ghp" emptyWorld ⟨"v1.2.0", [aZip, bZip]⟩ [] aZip [bZip] fetchedWorld
    "HTTP 401 Unauthorized" hreach rfl ⟨rfl, rfl, rfl, rfl, rfl, rfl, rfl⟩ rfl
  ⟨hreach, h.1, h.2.1, h.2.2.2⟩

end ReleaseMirror
